import Mathlib

/-!
Verification of the field-extraction engine of `job_scraper.py`.

The development shallowly embeds the pure core of `JobScraper`: the DOM
tree handed over by the browser collaborator is an inductive `Node`, the
CSS-style selectors that the code feeds to BeautifulSoup are an inductive
`Selector`, and each `_extract_*` method becomes a Lean function over
`Node`.  BeautifulSoup's documented semantics are modelled faithfully:
`select_one` / `select` match strict descendants of the queried element in
document order (never the element itself), `find` with a string argument
matches by exact tag name among strict descendants, `get_text(strip=True)`
concatenates the individually trimmed text pieces of the subtree, and a
`Tag` is always truthy while `None` is falsy.
-/

namespace JobScraper

/-- Python-style character list helpers.  `isStartOf pat s` decides whether
`s` starts with `pat`. -/
def isStartOf : List Char → List Char → Bool
  | [], _ => true
  | _ :: _, [] => false
  | a :: as, b :: bs => a == b && isStartOf as bs

/-- Occurrence of `pat` as a contiguous segment of `s`, the semantics of
Python's `in` operator on strings. -/
def occursIn : List Char → List Char → Bool
  | pat, [] => pat.isEmpty
  | pat, c :: rest => isStartOf pat (c :: rest) || occursIn pat rest

/-- Substring containment test: Python's `sub in s`. -/
def strContains (s sub : String) : Bool :=
  occursIn sub.data s.data

/-- Python's `str.startswith`. -/
def pyStarts (s pre : String) : Bool :=
  isStartOf pre.data s.data

/-- Leftmost, non-overlapping replacement of every occurrence of `pat` by
`rep`, the semantics of Python's `str.replace`. -/
def replChars (pat rep : List Char) : List Char → List Char
  | [] => []
  | c :: rest =>
    if pat.isEmpty = false ∧ isStartOf pat (c :: rest) then
      rep ++ replChars pat rep (List.drop (pat.length - 1) rest)
    else
      c :: replChars pat rep rest
termination_by s => s.length
decreasing_by
  · simp only [List.length_drop, List.length_cons]
    omega
  · simp

/-- Python's `str.replace(pat, rep)` (replace all occurrences). -/
def pyReplace (s pat rep : String) : String :=
  ⟨replChars pat.data rep.data s.data⟩

/-- Split on every leftmost, non-overlapping occurrence of `sep`, the
semantics of Python's `str.split(sep)` for a non-empty separator. -/
def splitChars (sep : List Char) : List Char → List Char → List (List Char)
  | [], acc => [acc.reverse]
  | c :: rest, acc =>
    if sep.isEmpty = false ∧ isStartOf sep (c :: rest) then
      acc.reverse :: splitChars sep (List.drop (sep.length - 1) rest) []
    else
      splitChars sep rest (c :: acc)
termination_by s _ => s.length
decreasing_by
  · simp only [List.length_drop, List.length_cons]
    omega
  · simp

/-- Python's `str.split(sep)`. -/
def pySplit (s sep : String) : List String :=
  (splitChars sep.data s.data []).map fun l => ⟨l⟩

/-- Python's `str.strip()` with no argument (BeautifulSoup strips
`NavigableString`s the same way): drop leading and trailing whitespace. -/
def pyStrip (s : String) : String :=
  ⟨((s.data.dropWhile Char.isWhitespace).reverse.dropWhile
      Char.isWhitespace).reverse⟩

/-- Python's `str.lower()` (ASCII case folding suffices here). -/
def pyLower (s : String) : String :=
  ⟨s.data.map Char.toLower⟩

/-- Python's `str.capitalize()`: first character upper-cased, the rest
lower-cased. -/
def pyCapitalize (s : String) : String :=
  match s.data with
  | [] => ""
  | c :: cs => ⟨c.toUpper :: cs.map Char.toLower⟩

/-- A parsed DOM node: an element with a tag name, the token list of its
`class` attribute (empty when absent, as `tag.get('class', [])` yields),
its other attributes, and its children in document order; or a text node
(a `NavigableString`). -/
inductive Node where
  | elem (tag : String) (classes : List String)
      (attrs : List (String × String)) (children : List Node)
  | text (s : String)

/-- Tag name of a node; text nodes have none. -/
def Node.tagName : Node → String
  | .elem t _ _ _ => t
  | .text _ => ""

/-- Class token list of a node, the value of `tag.get('class', [])`. -/
def Node.classList : Node → List String
  | .elem _ cs _ _ => cs
  | .text _ => []

/-- Attribute lookup, `tag.attrs.get(key)`. -/
def Node.attr : Node → String → Option String
  | .elem _ _ as _, k => (as.find? fun p => p.1 == k).map Prod.snd
  | .text _, _ => none

/-- Whether the node carries the attribute, `key in tag.attrs`. -/
def Node.hasAttr (n : Node) (k : String) : Bool :=
  (n.attr k).isSome

/-- The serialized value of the `class` attribute, against which CSS
attribute selectors such as `[class*="job-"]` match: the tokens joined by
single spaces. -/
def Node.classAttr (n : Node) : String :=
  String.intercalate " " n.classList

mutual
/-- Concatenation of all text pieces in the subtree, the semantics of
BeautifulSoup's `get_text()` with its default separator. -/
def Node.allText : Node → String
  | .text s => s
  | .elem _ _ _ cs => Node.listText cs

/-- Text of a forest, in document order. -/
def Node.listText : List Node → String
  | [] => ""
  | c :: cs => Node.allText c ++ Node.listText cs
end

mutual
/-- Concatenation of the individually trimmed text pieces of the subtree,
the semantics of `get_text(strip=True)` (each `NavigableString` is
stripped; joining with the empty separator makes dropped empties moot). -/
def Node.stripText : Node → String
  | .text s => pyStrip s
  | .elem _ _ _ cs => Node.listStripText cs

/-- Trimmed text of a forest, in document order. -/
def Node.listStripText : List Node → String
  | [] => ""
  | c :: cs => Node.stripText c ++ Node.listStripText cs
end

mutual
/-- The strict element descendants of a node in document (pre-)order, each
paired with its chain of element ancestors, nearest first.  `anc` is the
ancestor chain of the node itself.  Text nodes are skipped: BeautifulSoup's
`select` and name/function `find_all` queries match `Tag`s only. -/
def Node.descAnc : Node → List Node → List (Node × List Node)
  | .text _, _ => []
  | .elem t c a cs, anc => Node.listDescAnc cs (.elem t c a cs :: anc)

/-- Element nodes of a forest with their ancestor chains, document order;
`anc` is the ancestor chain of each root of the forest. -/
def Node.listDescAnc : List Node → List Node → List (Node × List Node)
  | [], _ => []
  | .text _ :: ns, anc => Node.listDescAnc ns anc
  | .elem t c a cs :: ns, anc =>
      (Node.elem t c a cs, anc) :: Node.descAnc (.elem t c a cs) anc
        ++ Node.listDescAnc ns anc
end

/-- The strict element descendants of a node in document order. -/
def Node.descendants (n : Node) : List Node :=
  (n.descAnc []).map Prod.fst

/-- The CSS selector shapes the scraper uses: a group of tag names
(`h1, h2, ...` or a single tag), an attribute-substring test on the class
attribute (`[class*="sub"]`), the same restricted to one tag
(`div[class*="sub"]`), a class token (`.job-listing`), and attribute
presence (`[data-location]`, `[datetime]`). -/
inductive Selector where
  | tags (names : List String)
  | classSub (sub : String)
  | tagClassSub (tag : String) (sub : String)
  | classTok (tok : String)
  | attrPresent (key : String)

/-- CSS matching of one selector against one element, per soupsieve
semantics: `[class*=]` substring-matches the space-joined class attribute
value (absent attribute never matches a non-empty substring), `.tok`
matches a class token exactly, a tag group matches the tag name. -/
def matchesSel : Selector → Node → Bool
  | .tags names, n => names.contains n.tagName
  | .classSub sub, n => strContains n.classAttr sub && n.classList ≠ []
  | .tagClassSub t sub, n =>
      n.tagName == t && (strContains n.classAttr sub && n.classList ≠ [])
  | .classTok tok, n => n.classList.contains tok
  | .attrPresent k, n => n.hasAttr k

/-- `element.select(selector)`: every strict descendant matching the
selector, in document order. -/
def selectAll (e : Node) (s : Selector) : List Node :=
  e.descendants.filter (matchesSel s)

/-- `element.select_one(selector)`: the first strict descendant matching
the selector, in document order, if any. -/
def selectOne (e : Node) (s : Selector) : Option Node :=
  e.descendants.find? (matchesSel s)

/-- `element.find(name)` for a string argument: the first strict
descendant `Tag` whose name equals the string. -/
def findTag (e : Node) (name : String) : Option Node :=
  e.descendants.find? fun n => n.tagName == name

/-- `element.find([n1, n2, ...])`: the first strict descendant whose tag
name is in the list. -/
def findTags (e : Node) (names : List String) : Option Node :=
  e.descendants.find? fun n => names.contains n.tagName

/-- One step of every per-field cascade: the selector the source code
passes to `_extract_text`, kept both in structured form (for the
`select_one` CSS query) and as the raw string (which the `element.find`
fallback interprets as a tag name). -/
structure Rule where
  css : Selector
  raw : String

/-- `JobScraper._extract_text`: try `select_one(selector)`; only when that
returns `None` (a found `Tag` is always truthy), try `find(selector)`,
which matches the raw selector string as a tag name; return the found
element's `get_text(strip=True)`, or the empty string when nothing was
found. -/
def extract_text (e : Node) (r : Rule) : String :=
  match selectOne e r.css with
  | some n => n.stripText
  | none =>
    match findTag e r.raw with
    | some n => n.stripText
    | none => ""

/-- The loop body shared by `_extract_job_title`, `_extract_location`,
`_extract_description`, `_extract_date_posted`, `_extract_department` and
`_extract_employment_type`: walk the rule list in order and return the
stripped text of the first rule whose `_extract_text` is non-empty
(Python truthiness of the string); `none` when every rule is exhausted. -/
def extractFirst? : List Rule → Node → Option String
  | [], _ => none
  | r :: rs, e =>
    let t := extract_text e r
    if t = "" then extractFirst? rs e else some (pyStrip t)

/-- The rule list of `_extract_job_title`. -/
def titleRules : List Rule :=
  [ ⟨.tags ["h1", "h2", "h3", "h4", "h5", "h6"], "h1, h2, h3, h4, h5, h6"⟩,
    ⟨.classSub "title", "[class*=\x22title\x22]"⟩,
    ⟨.classSub "position", "[class*=\x22position\x22]"⟩,
    ⟨.classSub "role", "[class*=\x22role\x22]"⟩,
    ⟨.classSub "job-name", "[class*=\x22job-name\x22]"⟩,
    ⟨.tags ["a"], "a"⟩ ]

/-- `JobScraper._extract_job_title`. -/
def extract_job_title (e : Node) : String :=
  (extractFirst? titleRules e).getD ""

/-- The rule list of `_extract_location`. -/
def locationRules : List Rule :=
  [ ⟨.classSub "location", "[class*=\x22location\x22]"⟩,
    ⟨.classSub "place", "[class*=\x22place\x22]"⟩,
    ⟨.classSub "city", "[class*=\x22city\x22]"⟩,
    ⟨.classSub "region", "[class*=\x22region\x22]"⟩,
    ⟨.attrPresent "data-location", "[data-location]"⟩,
    ⟨.classSub "address", "[class*=\x22address\x22]"⟩ ]

/-- `JobScraper._extract_location`. -/
def extract_location (e : Node) : String :=
  (extractFirst? locationRules e).getD ""

/-- The rule list of `_extract_description`. -/
def descriptionRules : List Rule :=
  [ ⟨.classSub "description", "[class*=\x22description\x22]"⟩,
    ⟨.classSub "summary", "[class*=\x22summary\x22]"⟩,
    ⟨.classSub "details", "[class*=\x22details\x22]"⟩,
    ⟨.classSub "content", "[class*=\x22content\x22]"⟩,
    ⟨.tags ["p"], "p"⟩ ]

/-- `JobScraper._extract_description`. -/
def extract_description (e : Node) : String :=
  (extractFirst? descriptionRules e).getD ""

/-- The rule list of `_extract_date_posted`. -/
def dateRules : List Rule :=
  [ ⟨.classSub "date", "[class*=\x22date\x22]"⟩,
    ⟨.classSub "posted", "[class*=\x22posted\x22]"⟩,
    ⟨.classSub "published", "[class*=\x22published\x22]"⟩,
    ⟨.tags ["time"], "time"⟩,
    ⟨.attrPresent "datetime", "[datetime]"⟩ ]

/-- `JobScraper._extract_date_posted` (returns `None` when absent). -/
def extract_date_posted (e : Node) : Option String :=
  extractFirst? dateRules e

/-- The rule list of `_extract_department`. -/
def departmentRules : List Rule :=
  [ ⟨.classSub "department", "[class*=\x22department\x22]"⟩,
    ⟨.classSub "team", "[class*=\x22team\x22]"⟩,
    ⟨.classSub "category", "[class*=\x22category\x22]"⟩,
    ⟨.classSub "function", "[class*=\x22function\x22]"⟩ ]

/-- `JobScraper._extract_department`. -/
def extract_department (e : Node) : String :=
  (extractFirst? departmentRules e).getD ""

/-- The rule list of `_extract_employment_type`. -/
def employmentTypeRules : List Rule :=
  [ ⟨.classSub "type", "[class*=\x22type\x22]"⟩,
    ⟨.classSub "employment", "[class*=\x22employment\x22]"⟩,
    ⟨.classSub "contract", "[class*=\x22contract\x22]"⟩,
    ⟨.classSub "work-type", "[class*=\x22work-type\x22]"⟩ ]

/-- `JobScraper._extract_employment_type`. -/
def extract_employment_type (e : Node) : String :=
  (extractFirst? employmentTypeRules e).getD ""

/-- Modelled from the Python standard library's `urllib.parse.urljoin`,
restricted to the hierarchical http(s)-style URLs the scraper handles: an
href that already carries a scheme is returned unchanged, a
protocol-relative `//host/...` href inherits the base's scheme, a rooted
`/path` href replaces the base's path, and a relative href replaces the
base's last path segment.  No query/fragment or dot-segment handling is
modelled. -/
def urljoin (base href : String) : String :=
  if href = "" then base
  else if strContains href "://" then href
  else
    match pySplit base "://" with
    | scheme :: hostPath :: _ =>
      let segs := pySplit hostPath "/"
      let host := segs.headD ""
      if pyStarts href "//" then scheme ++ ":" ++ href
      else if pyStarts href "/" then scheme ++ "://" ++ host ++ href
      else
        scheme ++ "://" ++ String.intercalate "/" segs.dropLast ++ "/" ++ href
    | _ => href

/-- The first `<a>` descendant found by `element.find('a')`, when it also
carries an `href` attribute: the condition `link and 'href' in link.attrs`
of `_extract_job_url` (a later `<a>` with an `href` is never consulted). -/
def linkHref (e : Node) : Option String :=
  match findTag e "a" with
  | some link => link.attr "href"
  | none => none

/-- The ancestor walk of `_extract_job_url`: visit the given ancestors in
order (nearest first), and on the first one whose first `<a>` descendant
has an `href`, resolve that href against the base URL; empty string when
the list is exhausted. -/
def ancWalk : List Node → String → String
  | [], _ => ""
  | p :: ps, base =>
    match linkHref p with
    | some h => urljoin base h
    | none => ancWalk ps base

/-- `JobScraper._extract_job_url`: first a direct `find('a')` on the
element itself, then up to three ancestor levels (`for _ in range(3)`
starting at `element.parent`); `anc` is the element's ancestor chain,
nearest first. -/
def extract_job_url (anc : List Node) (e : Node) (base : String) : String :=
  match linkHref e with
  | some h => urljoin base h
  | none => ancWalk (anc.take 3) base

/-- `JobScraper._extract_company_name`: `url.split('//')[1].split('/')[0]`,
then `.replace('www.', '')`, `.split('.')[0]`, `.capitalize()`; the bare
`except` (reached exactly when `split('//')` has no second part) returns
the raw URL. -/
def extract_company_name (url : String) : String :=
  match pySplit url "//" with
  | _ :: second :: _ =>
    let domain := (pySplit second "/").headD ""
    let company := (pySplit (pyReplace domain "www." "") ".").headD ""
    pyCapitalize company
  | _ => url

/-- The keyword list of the pattern fallback in `scrape_jobs`. -/
def keywords : List String := ["job", "career", "position", "vacancy", "opening"]

/-- The first fallback pattern of `scrape_jobs`, verbatim from the lambda:
the tag's name is `div`/`article`/`li` and some keyword is a **member**
(Python `in` on a list, i.e. string equality) of the list formed by the
class tokens plus the single string `tag.get_text().lower()`. -/
def pattern1 (n : Node) : Bool :=
  (["div", "article", "li"].contains n.tagName) &&
  (keywords.any fun kw => (n.classList ++ [pyLower n.allText]).contains kw)

/-- The second fallback pattern of `scrape_jobs`:
`tag.find(['h1', ..., 'h6']) is not None`. -/
def pattern2 (n : Node) : Bool :=
  (findTags n ["h1", "h2", "h3", "h4", "h5", "h6"]).isSome

/-- The 13 structural selectors of `scrape_jobs`, in source order. -/
def structuralSelectors : List Selector :=
  [ .tagClassSub "div" "job-",
    .tagClassSub "div" "career-",
    .tagClassSub "div" "position-",
    .classTok "job-listing",
    .classTok "careers-list",
    .classTok "jobs-list",
    .classTok "positions-list",
    .classTok "job-posting",
    .classTok "career-posting",
    .classTok "position-posting",
    .classTok "jobs-list-item",
    .classTok "career-opportunities",
    .classTok "vacancy-item" ]

/-- The shape of both cascade loops in `scrape_jobs`: the accumulating
variable ends up holding the first non-empty result list, or `[]` when
every strategy came up empty. -/
def firstHit : List (List α) → List α
  | [] => []
  | l :: ls => if l.isEmpty then firstHit ls else l

/-- The Listing Locator of `scrape_jobs`: try the 13 structural selectors
in order over the whole soup and keep the first selector's full match set;
only if all 13 match nothing, try the two fallback patterns in order via
`find_all`.  Candidates are returned with their ancestor chains, which the
real `Tag` objects carry as parent pointers. -/
def locate (soup : Node) : List (Node × List Node) :=
  let bySel := firstHit (structuralSelectors.map fun s =>
    (soup.descAnc []).filter fun p => matchesSel s p.1)
  if bySel.isEmpty then
    firstHit
      [ (soup.descAnc []).filter fun p => pattern1 p.1,
        (soup.descAnc []).filter fun p => pattern2 p.1 ]
  else bySel

/-- The output record assembled per candidate element in `scrape_jobs`. -/
structure JobRecord where
  company : String
  title : String
  location : String
  description : String
  url : String
  source_url : String
  date_posted : Option String
  department : String
  employment_type : String
  scraped_date : String
deriving DecidableEq

/-- The `job_data` dictionary built for one candidate element; `now`
stands for the `datetime.now().isoformat()` capture timestamp supplied by
the environment. -/
def mkRecord (url now : String) (p : Node × List Node) : JobRecord :=
  { company := extract_company_name url
    title := extract_job_title p.1
    location := extract_location p.1
    description := extract_description p.1
    url := extract_job_url p.2 p.1 url
    source_url := url
    date_posted := extract_date_posted p.1
    department := extract_department p.1
    employment_type := extract_employment_type p.1
    scraped_date := now }

/-- The pure per-page pipeline of `scrape_jobs` after the page content is
parsed: locate the candidate elements, build a record for each, and keep
exactly those whose `title` is non-empty
(`if job_data['title']: jobs.append(job_data)`). -/
def scrape_jobs (soup : Node) (url now : String) : List JobRecord :=
  ((locate soup).map (mkRecord url now)).filter fun r => r.title ≠ ""

/-- A record with the capture timestamp blanked, for comparing two runs
field-by-field on everything except `scraped_date`. -/
def eraseTimestamp (r : JobRecord) : JobRecord :=
  { r with scraped_date := "" }

end JobScraper

namespace JobScraper

/-- C1: for every page, source URL and timestamp, every record of the
per-page pipeline's output has a non-empty `title`, and a candidate
posting element's record appears in the output if and only if its
extracted title is non-empty (the other fields play no role in
retention). -/
theorem title_filter_iff (soup : Node) (url now : String) :
    (∀ r ∈ scrape_jobs soup url now, r.title ≠ "") ∧
    (∀ p ∈ locate soup,
      (mkRecord url now p ∈ scrape_jobs soup url now ↔
        extract_job_title p.1 ≠ "")) := by
  constructor
  · intro r hr
    have h := (List.mem_filter.mp hr).2
    simpa using h
  · intro p hp
    constructor
    · intro h
      have h2 := (List.mem_filter.mp h).2
      simpa [mkRecord] using h2
    · intro h
      refine List.mem_filter.mpr ⟨List.mem_map_of_mem _ hp, ?_⟩
      simpa [mkRecord] using h

/-- A small concrete career page used to instantiate the theorems: one
`div.job-listing` posting whose `h3` holds the title. -/
def sampleJob : Node :=
  .elem "div" ["job-listing"] [] [.elem "h3" [] [] [.text " Dev "]]

/-- Body of the sample page. -/
def sampleBody : Node := .elem "body" [] [] [sampleJob]

/-- Root html element of the sample page. -/
def sampleHtml : Node := .elem "html" [] [] [sampleBody]

/-- The parsed sample page (the soup object). -/
def samplePage : Node := .elem "[document]" [] [] [sampleHtml]

/-- Ancestor chain of `sampleJob` inside `samplePage`, nearest first. -/
def sampleAnc : List Node := [sampleBody, sampleHtml, samplePage]

/-- Witness for C1 on the sample page: its single candidate has title
"Dev", so its record is in the output. -/
theorem title_filter_iff_witness :
    mkRecord "https://acme.com/careers" "T" (sampleJob, sampleAnc) ∈
      scrape_jobs samplePage "https://acme.com/careers" "T" := by
  have hloc : locate samplePage = [(sampleJob, sampleAnc)] := by
    simp [locate, structuralSelectors, firstHit, samplePage, sampleHtml, sampleBody,
      sampleJob, sampleAnc, Node.descAnc, Node.listDescAnc, matchesSel, Node.tagName,
      Node.classList, Node.classAttr, strContains, occursIn, isStartOf]
  have hmem : (sampleJob, sampleAnc) ∈ locate samplePage := by
    rw [hloc]; exact List.mem_singleton.mpr rfl
  refine ((title_filter_iff samplePage "https://acme.com/careers" "T").2
    (sampleJob, sampleAnc) hmem).mpr ?_
  have : extract_job_title sampleJob = "Dev" := by
    simp [extract_job_title, extractFirst?, titleRules, extract_text, selectOne, findTag,
      Node.descendants, Node.descAnc, Node.listDescAnc, matchesSel, Node.tagName,
      Node.classList, Node.classAttr, Node.hasAttr, Node.attr, strContains, occursIn,
      isStartOf, Node.stripText, Node.listStripText, pyStrip, List.dropWhile, sampleJob,
      List.find?]
  simp [this]

/-- The predicate "this rule yields non-empty text on element `e`". -/
def ruleHits (e : Node) (r : Rule) : Bool :=
  !(extract_text e r == "")

/-- Unfolding of the shared cascade loop: it returns the stripped text of
the first rule that yields non-empty text. -/
theorem extractFirst?_eq_find? (rules : List Rule) (e : Node) :
    extractFirst? rules e =
      (rules.find? (ruleHits e)).map fun r => pyStrip (extract_text e r) := by
  induction rules with
  | nil => rfl
  | cons r rs ih =>
    by_cases h : extract_text e r = ""
    · simp [extractFirst?, ruleHits, h, ih]
    · simp [extractFirst?, ruleHits, h]

/-- `find?` only sees the sublist of elements satisfying the predicate. -/
theorem find?_eq_filter_head? (p : α → Bool) (l : List α) :
    l.find? p = (l.filter p).head? := by
  induction l with
  | nil => rfl
  | cons a l ih =>
    by_cases h : p a
    · rw [List.find?_cons_of_pos _ h, List.filter_cons_of_pos h, List.head?_cons]
    · rw [List.find?_cons_of_neg _ h, List.filter_cons_of_neg h, ih]

/-- C4: the Field Extractor's shared cascade returns the stripped text of
the first rule (in listed order) yielding non-empty text; two rule lists
whose matching-rule sublists agree give the same result, so permuting
rules that yield nothing never changes it; when every rule is exhausted
the field resolves to `none`, which per field becomes the empty string, or
stays `None` for `date_posted`. -/
theorem rule_cascade_first_match (e : Node) (rules l1 l2 : List Rule) :
    (extractFirst? rules e =
      (rules.find? (ruleHits e)).map fun r => pyStrip (extract_text e r)) ∧
    (l1.filter (ruleHits e) = l2.filter (ruleHits e) →
      extractFirst? l1 e = extractFirst? l2 e) ∧
    ((∀ r ∈ rules, extract_text e r = "") → extractFirst? rules e = none) ∧
    extract_job_title e = (extractFirst? titleRules e).getD "" ∧
    extract_location e = (extractFirst? locationRules e).getD "" ∧
    extract_description e = (extractFirst? descriptionRules e).getD "" ∧
    extract_department e = (extractFirst? departmentRules e).getD "" ∧
    extract_employment_type e = (extractFirst? employmentTypeRules e).getD "" ∧
    extract_date_posted e = extractFirst? dateRules e := by
  refine ⟨extractFirst?_eq_find? rules e, ?_, ?_, rfl, rfl, rfl, rfl, rfl, rfl⟩
  · intro h
    rw [extractFirst?_eq_find?, extractFirst?_eq_find?,
      find?_eq_filter_head?, find?_eq_filter_head?, h]
  · intro h
    rw [extractFirst?_eq_find?]
    have : rules.find? (ruleHits e) = none := by
      rw [List.find?_eq_none]
      intro x hx
      simp [ruleHits, h x hx]
    simp [this]

/-- Witness for C4 on the sample page: prepending the never-matching `a`
rule to the title rules does not change the extracted title, and the
department rules, which all miss, resolve to `none`. -/
theorem rule_cascade_first_match_witness :
    extractFirst? (⟨Selector.tags ["a"], "a"⟩ :: titleRules) sampleJob =
      extractFirst? titleRules sampleJob ∧
    extractFirst? departmentRules sampleJob = none := by
  constructor
  · exact (rule_cascade_first_match sampleJob titleRules
      (⟨Selector.tags ["a"], "a"⟩ :: titleRules) titleRules).2.1 (by
        simp [titleRules, ruleHits, extract_text, selectOne, findTag, Node.descendants,
          Node.descAnc, Node.listDescAnc, matchesSel, Node.tagName, Node.classList,
          Node.classAttr, Node.hasAttr, Node.attr, strContains, occursIn, isStartOf,
          Node.stripText, Node.listStripText, pyStrip, List.dropWhile, sampleJob,
          List.find?, List.filter])
  · exact (rule_cascade_first_match sampleJob departmentRules titleRules titleRules).2.2.1 (by
      simp [departmentRules, extract_text, selectOne, findTag, Node.descendants,
        Node.descAnc, Node.listDescAnc, matchesSel, Node.tagName, Node.classList,
        Node.classAttr, Node.hasAttr, Node.attr, strContains, occursIn, isStartOf,
        Node.stripText, Node.listStripText, pyStrip, List.dropWhile, sampleJob,
        List.find?])

/-- C9: the shared rule-evaluation primitive runs the structural CSS query
first, and consults the tag-name probe (the raw selector string read as a
tag name) exactly when the structural query returned nothing; it returns
the found element's stripped text, and empty when nothing is found or the
found element's text pieces are all whitespace. -/
theorem extract_text_probe_order (e : Node) (r : Rule) (n : Node) :
    (selectOne e r.css = some n → extract_text e r = n.stripText) ∧
    (selectOne e r.css = none →
      extract_text e r = ((findTag e r.raw).map Node.stripText).getD "") ∧
    (selectOne e r.css = none → findTag e r.raw = none → extract_text e r = "") ∧
    (selectOne e r.css = some n → n.stripText = "" → extract_text e r = "") := by
  refine ⟨fun h => ?_, fun h => ?_, fun h h2 => ?_, fun h h2 => ?_⟩
  · simp [extract_text, h]
  · cases hf : findTag e r.raw <;> simp [extract_text, h, hf]
  · simp [extract_text, h, h2]
  · simp [extract_text, h, h2]

/-- Witness for C9 on the sample page: the heading rule matches the `h3`
structurally; a rule whose CSS part misses but whose raw string is the tag
name `h3` succeeds through the secondary probe; a rule missing on both
probes yields empty. -/
theorem extract_text_probe_order_witness :
    extract_text sampleJob ⟨.tags ["h1", "h2", "h3", "h4", "h5", "h6"],
        "h1, h2, h3, h4, h5, h6"⟩ = "Dev" ∧
    extract_text sampleJob ⟨.classSub "title", "h3"⟩ = "Dev" ∧
    extract_text sampleJob ⟨.classSub "department", "[class*=\x22department\x22]"⟩ = "" := by
  refine ⟨?_, ?_, ?_⟩
  · have h := (extract_text_probe_order sampleJob
      ⟨.tags ["h1", "h2", "h3", "h4", "h5", "h6"], "h1, h2, h3, h4, h5, h6"⟩
      (Node.elem "h3" [] [] [.text " Dev "])).1 (by
        simp [selectOne, Node.descendants, Node.descAnc, Node.listDescAnc, matchesSel,
          Node.tagName, sampleJob, List.find?])
    simpa [Node.stripText, Node.listStripText, pyStrip, List.dropWhile] using h
  · have h := ((extract_text_probe_order sampleJob
      ⟨.classSub "title", "h3"⟩ sampleJob).2.1) (by
        simp [selectOne, Node.descendants, Node.descAnc, Node.listDescAnc, matchesSel,
          Node.tagName, Node.classList, Node.classAttr, strContains, occursIn, isStartOf,
          sampleJob, List.find?])
    simp only [h]
    simp [findTag, Node.descendants, Node.descAnc, Node.listDescAnc, Node.tagName,
      sampleJob, List.find?, Node.stripText, Node.listStripText, pyStrip, List.dropWhile]
  · exact ((extract_text_probe_order sampleJob
      ⟨.classSub "department", "[class*=\x22department\x22]"⟩ sampleJob).2.2.1)
      (by simp [selectOne, Node.descendants, Node.descAnc, Node.listDescAnc, matchesSel,
        Node.tagName, Node.classList, Node.classAttr, strContains, occursIn, isStartOf,
        sampleJob, List.find?])
      (by simp [findTag, Node.descendants, Node.descAnc, Node.listDescAnc, Node.tagName,
        sampleJob, List.find?])

/-- A rule yields nothing on an element none of whose strict descendants
match it, regardless of whether the element itself would match. -/
theorem extract_text_empty_of_unmatched (e : Node) (r : Rule)
    (h : ∀ d ∈ e.descendants, matchesSel r.css d = false ∧ d.tagName ≠ r.raw) :
    extract_text e r = "" := by
  have h1 : selectOne e r.css = none := by
    rw [selectOne, List.find?_eq_none]
    intro d hd
    simp [(h d hd).1]
  have h2 : findTag e r.raw = none := by
    rw [findTag, List.find?_eq_none]
    intro d hd
    simp [(h d hd).2]
  simp [extract_text, h1, h2]

/-- C10: field rules see only strict descendants of the candidate element:
if no strict descendant satisfies a rule (structurally or by tag name),
the rule yields empty text even when the candidate element itself would
satisfy it; when that holds for every rule of a cascade, the whole field
resolves to nothing — so a posting element that is literally a bare
heading gets an empty title. -/
theorem rules_match_strict_descendants_only (e : Node) (r : Rule) (rules : List Rule)
    (h : ∀ d ∈ e.descendants, matchesSel r.css d = false ∧ d.tagName ≠ r.raw) :
    extract_text e r = "" ∧
    ((∀ rr ∈ rules, ∀ d ∈ e.descendants,
        matchesSel rr.css d = false ∧ d.tagName ≠ rr.raw) →
      extractFirst? rules e = none) := by
  refine ⟨extract_text_empty_of_unmatched e r h, fun hall => ?_⟩
  rw [extractFirst?_eq_find?]
  have hnone : rules.find? (ruleHits e) = none := by
    rw [List.find?_eq_none]
    intro rr hrr
    simp [ruleHits, extract_text_empty_of_unmatched e rr (hall rr hrr)]
  simp [hnone]

/-- Witness for C10: a candidate that is itself `<h2 class="title">` with
no element descendants matches the heading rule as an element, yet its
title resolves to nothing. -/
theorem rules_match_strict_descendants_only_witness :
    extract_text (Node.elem "h2" ["title"] [] [.text "Engineer"])
      ⟨.tags ["h1", "h2", "h3", "h4", "h5", "h6"], "h1, h2, h3, h4, h5, h6"⟩ = "" ∧
    extractFirst? titleRules (Node.elem "h2" ["title"] [] [.text "Engineer"]) = none := by
  have H := rules_match_strict_descendants_only
    (Node.elem "h2" ["title"] [] [.text "Engineer"])
    ⟨.tags ["h1", "h2", "h3", "h4", "h5", "h6"], "h1, h2, h3, h4, h5, h6"⟩
    titleRules
    (by simp [Node.descendants, Node.descAnc, Node.listDescAnc])
  exact ⟨H.1, H.2 (by simp [Node.descendants, Node.descAnc, Node.listDescAnc])⟩

/-- The ancestor walk returns the first resolvable href among the visited
ancestors, and empty when none resolves. -/
theorem ancWalk_eq_findSome? (l : List Node) (base : String) :
    ancWalk l base = ((l.findSome? linkHref).elim "" fun h => urljoin base h) := by
  induction l with
  | nil => rfl
  | cons p ps ih =>
    cases hl : linkHref p <;> simp [ancWalk, List.findSome?_cons, hl, ih]

/-- C5: `url` extraction resolves the first link-with-href found on the
element itself or on its first three ancestor levels (nearest first, empty
string when all are exhausted) against the source URL; resolution has
base-join semantics: an href that already carries a scheme is returned
unchanged, and a root-relative href replaces the base URL's path. -/
theorem job_url_ancestor_walk (anc : List Node) (e : Node) (base href : String) :
    (extract_job_url anc e base =
      (((e :: anc.take 3).findSome? linkHref).elim "" fun h => urljoin base h)) ∧
    (strContains href "://" = true → urljoin base href = href) ∧
    urljoin "https://acme.com/careers" "/jobs/42" = "https://acme.com/jobs/42" := by
  refine ⟨?_, fun hc => ?_, ?_⟩
  · cases hl : linkHref e <;>
      simp [extract_job_url, hl, List.findSome?_cons, ancWalk_eq_findSome?]
  · have hne : href ≠ "" := by
      intro h0
      rw [h0] at hc
      simp [strContains, occursIn] at hc
    simp [urljoin, hne, hc]
  · simp [urljoin, strContains, occursIn, isStartOf, pyStarts, pySplit, splitChars]

/-- Witness for C5: a posting element with no link of its own picks up the
link of its parent and absolutizes the root-relative href; an absolute
href passes through unchanged. -/
theorem job_url_ancestor_walk_witness :
    urljoin "https://acme.com/careers" "https://other.com/x" = "https://other.com/x" ∧
    extract_job_url [Node.elem "div" [] [] [Node.elem "a" [] [("href", "/jobs/42")] []]]
      (Node.elem "h2" [] [] [.text "T"]) "https://acme.com/careers" =
      "https://acme.com/jobs/42" := by
  constructor
  · exact (job_url_ancestor_walk [] (Node.text "") "https://acme.com/careers"
      "https://other.com/x").2.1 (by simp [strContains, occursIn, isStartOf])
  · rw [(job_url_ancestor_walk
      [Node.elem "div" [] [] [Node.elem "a" [] [("href", "/jobs/42")] []]]
      (Node.elem "h2" [] [] [.text "T"]) "https://acme.com/careers" "").1]
    simp [linkHref, findTag, Node.descendants, Node.descAnc, Node.listDescAnc,
      Node.tagName, Node.attr, List.find?, List.findSome?, urljoin, strContains,
      occursIn, isStartOf, pyStarts, pySplit, splitChars]

/-- Modelled from the spec wording under test for the company derivation:
strip the scheme, strip ONLY a leading `www.` label of the host, take the
first dot-delimited label of what remains, and capitalize it; raw input
unchanged for a URL with no scheme separator.  Compared below against
`extract_company_name`, which is the code's behavior. -/
def companyLeadingWww (url : String) : String :=
  match pySplit url "//" with
  | _ :: second :: _ =>
    let host := (pySplit second "/").headD ""
    let host2 : String := if pyStarts host "www." then ⟨host.data.drop 4⟩ else host
    pyCapitalize ((pySplit host2 ".").headD "")
  | _ => url

/-- Counterexample to C6 as stated: on `https://awww.example.com/x` the
code removes the interior occurrence of `www.` (Python's `str.replace`
replaces every occurrence) and yields `Aexample`, while stripping only a
leading `www.` label would yield `Awww`. -/
theorem company_leading_www_counterexample :
    extract_company_name "https://awww.example.com/x" = "Aexample" ∧
    companyLeadingWww "https://awww.example.com/x" = "Awww" ∧
    extract_company_name "https://awww.example.com/x" ≠
      companyLeadingWww "https://awww.example.com/x" := by
  refine ⟨?_, ?_, ?_⟩ <;>
    simp [extract_company_name, companyLeadingWww, pySplit, splitChars, isStartOf,
      pyReplace, replChars, pyCapitalize, pyStarts]

/-- Splitting on a separator that does not occur returns the input whole. -/
theorem splitChars_of_not_occurs (sep : List Char) (s acc : List Char)
    (h : occursIn sep s = false) :
    splitChars sep s acc = [acc.reverse ++ s] := by
  induction s generalizing acc with
  | nil => simp [splitChars]
  | cons c rest ih =>
    rw [occursIn, Bool.or_eq_false_iff] at h
    simp only [splitChars, h.1, Bool.false_eq_true, and_false, if_false, ih _ h.2,
      List.reverse_cons, List.append_assoc, List.singleton_append]

/-- Python's `split` on a separator absent from the string is the identity
(one whole piece). -/
theorem pySplit_self (url sep : String) (h : strContains url sep = false) :
    pySplit url sep = [url] := by
  have hh : occursIn sep.data url.data = false := h
  rw [pySplit, splitChars_of_not_occurs sep.data url.data [] hh]
  cases url with
  | mk d => simp

/-- C6 amended: company derivation strips the scheme (everything up to the
first `//`), takes the host (up to the next `/`), removes EVERY occurrence
of the substring `www.` from it (not only a leading label), takes the
first dot-delimited label of what remains, and capitalizes it; for a URL
with no `//` separator it returns the raw input unchanged (and, being
total, never raises). -/
theorem company_all_www_removed (url u pre second : String) (more : List String)
    (h : strContains url "//" = false)
    (h2 : pySplit u "//" = pre :: second :: more) :
    extract_company_name url = url ∧
    extract_company_name u =
      pyCapitalize ((pySplit (pyReplace ((pySplit second "/").headD "")
        "www." "") ".").headD "") ∧
    extract_company_name "https://www.acme.io/careers" = "Acme" ∧
    extract_company_name "https://www.www.acme.com/x" = "Acme" := by
  refine ⟨?_, ?_, ?_, ?_⟩
  · rw [extract_company_name, pySplit_self url "//" h]
  · rw [extract_company_name, h2]
  · simp [extract_company_name, pySplit, splitChars, isStartOf, pyReplace, replChars,
      pyCapitalize]
  · simp [extract_company_name, pySplit, splitChars, isStartOf, pyReplace, replChars,
      pyCapitalize]

/-- Witness for C6 (amended): a schemeless string comes back unchanged,
and the well-formed example follows the replace-all pipeline. -/
theorem company_all_www_removed_witness :
    strContains "not-a-url" "//" = false ∧
    pySplit "https://www.acme.io/careers" "//" = ["https:", "www.acme.io/careers"] ∧
    extract_company_name "not-a-url" = "not-a-url" ∧
    extract_company_name "https://www.acme.io/careers" =
      pyCapitalize ((pySplit (pyReplace ((pySplit "www.acme.io/careers" "/").headD "")
        "www." "") ".").headD "") := by
  have h1 : strContains "not-a-url" "//" = false := by
    simp [strContains, occursIn, isStartOf]
  have h2 : pySplit "https://www.acme.io/careers" "//" =
      ["https:", "www.acme.io/careers"] := by
    simp [pySplit, splitChars, isStartOf]
  have H := company_all_www_removed "not-a-url" "https://www.acme.io/careers"
    "https:" "www.acme.io/careers" [] h1 h2
  exact ⟨h1, h2, H.1, H.2.1⟩

/-- The first non-empty list of a family is `[]` when all members are. -/
theorem firstHit_eq_nil (ls : List (List α)) (h : ∀ l ∈ ls, l = []) :
    firstHit ls = [] := by
  induction ls with
  | nil => rfl
  | cons l ls ih =>
    have hl := h l (List.mem_cons_self l ls)
    simp [firstHit, hl, ih fun x hx => h x (List.mem_cons_of_mem _ hx)]

/-- `select` finding nothing means the locator's internal pair-filter for
that selector finds nothing. -/
theorem pairFilter_eq_nil_of_selectAll (soup : Node) (s : Selector)
    (h : selectAll soup s = []) :
    (soup.descAnc []).filter (fun p => matchesSel s p.1) = [] := by
  have h2 : ((soup.descAnc []).map Prod.fst).filter (matchesSel s) = [] := h
  rw [List.filter_map] at h2
  exact List.map_eq_nil_iff.mp h2

/-- C7: on a page where every structural selector and both fallback
patterns match zero elements, the Listing Locator returns the empty
sequence, and the per-page pipeline returns the empty record sequence;
both functions are total, so no exception can propagate. -/
theorem empty_page_empty_output (soup : Node) (url now : String)
    (hsel : ∀ s ∈ structuralSelectors, selectAll soup s = [])
    (hp1 : (soup.descAnc []).filter (fun p => pattern1 p.1) = [])
    (hp2 : (soup.descAnc []).filter (fun p => pattern2 p.1) = []) :
    locate soup = [] ∧ scrape_jobs soup url now = [] := by
  have hb : firstHit (structuralSelectors.map fun s =>
      (soup.descAnc []).filter fun p => matchesSel s p.1) = [] := by
    apply firstHit_eq_nil
    intro l hl
    simp only [List.mem_map] at hl
    obtain ⟨s, hs, rfl⟩ := hl
    exact pairFilter_eq_nil_of_selectAll soup s (hsel s hs)
  have hloc : locate soup = [] := by
    unfold locate
    rw [hb]
    simp [firstHit, hp1, hp2]
  exact ⟨hloc, by simp [scrape_jobs, hloc]⟩

/-- A page with a single `span` and no job-like markup at all. -/
def pageBare : Node :=
  .elem "[document]" [] []
    [.elem "html" [] [] [.elem "body" [] [] [.elem "span" [] [] [.text "hi"]]]]

/-- Witness for C7 on the bare page. -/
theorem empty_page_empty_output_witness :
    locate pageBare = [] ∧ scrape_jobs pageBare "https://x.io" "T" = [] := by
  refine empty_page_empty_output pageBare "https://x.io" "T" ?_ ?_ ?_
  · simp [structuralSelectors, selectAll, Node.descendants, Node.descAnc,
      Node.listDescAnc, matchesSel, Node.tagName, Node.classList, Node.classAttr,
      strContains, occursIn, isStartOf, pageBare]
  · simp [pattern1, keywords, pyLower, Node.allText, Node.listText, Node.descAnc,
      Node.listDescAnc, Node.tagName, Node.classList, pageBare]
  · simp [pattern2, findTags, Node.descendants, Node.descAnc, Node.listDescAnc,
      Node.tagName, pageBare, List.find?]

/-- Modelled from the spec wording under test for the first
pattern-fallback stage: a `div`/`article`/`li` whose class list or
lowercased own text contains one of the keywords AS A SUBSTRING.  Compared
below against `pattern1`, which is the code's membership test. -/
def pattern1Spec (n : Node) : Bool :=
  (["div", "article", "li"].contains n.tagName) &&
  (keywords.any fun kw =>
    (n.classList.any fun c => strContains c kw) ||
      strContains (pyLower n.allText) kw)

/-- A `div` the substring reading of the fallback selects and the code's
membership test rejects. -/
def jobsDiv : Node := .elem "div" ["jobs"] [] [.text "Open positions"]

/-- A page whose only posting-like markup is `jobsDiv`. -/
def pageJobs : Node :=
  .elem "[document]" [] [] [.elem "html" [] [] [.elem "body" [] [] [jobsDiv]]]

/-- C2: evaluation of the code at the failing input.  The keyword test of
the first fallback pattern is Python list membership — `keyword in
(tag.get('class', []) + [tag.get_text().lower()])` — i.e. string equality
against each class token and against the whole lowercased text, not
substring containment: the spec-described substring predicate accepts
`<div class="jobs">Open positions</div>` (class token `jobs` and text both
contain keywords as substrings), no structural selector matches it, yet
the code's pattern rejects it, and the whole locator returns nothing on a
page whose sole candidate it is. -/
theorem pattern_fallback_membership_bug :
    pattern1Spec jobsDiv = true ∧
    pattern1 jobsDiv = false ∧
    (structuralSelectors.all fun s => !matchesSel s jobsDiv) = true ∧
    locate pageJobs = [] ∧
    ((pageJobs.descAnc []).filter fun p => pattern1Spec p.1) =
      [(jobsDiv, [.elem "body" [] [] [jobsDiv],
                  .elem "html" [] [] [.elem "body" [] [] [jobsDiv]], pageJobs])] := by
  refine ⟨?_, ?_, ?_, ?_, ?_⟩ <;>
    simp [pattern1Spec, pattern1, keywords, pyLower, Node.allText, Node.listText,
      Node.tagName, Node.classList, Node.classAttr, strContains, occursIn, isStartOf,
      structuralSelectors, matchesSel, Node.hasAttr, Node.attr, locate, firstHit,
      Node.descAnc, Node.listDescAnc, pattern2, findTags, Node.descendants,
      jobsDiv, pageJobs, List.find?]

/-- One of the two posting `div`s of the C3 scenario. -/
def openDiv : Node := .elem "div" [] [] [.text "Open Position"]

/-- The C3 scenario page: no structural selector matches anything, and the
page holds exactly two `div`s whose text is "Open Position". -/
def pageOpen : Node :=
  .elem "[document]" [] []
    [.elem "html" [] [] [.elem "body" [] [] [openDiv, openDiv]]]

/-- C3: evaluation of the code on the scenario page.  All 13 structural
selectors miss and the page has exactly two `div`s with text
"Open Position", but the pattern fallback misses them too — the membership
test compares each keyword for equality with the whole lowercased text
`"open position"` — so the Listing Locator returns the empty sequence
instead of the two `div`s. -/
theorem open_position_page_drops_candidates :
    (structuralSelectors.all fun s => (selectAll pageOpen s).isEmpty) = true ∧
    ((pageOpen.descAnc []).map Prod.fst).countP
      (fun n => n.tagName == "div" && n.allText == "Open Position") = 2 ∧
    locate pageOpen = [] := by
  refine ⟨?_, ?_, ?_⟩ <;>
    simp [structuralSelectors, selectAll, Node.descendants, Node.descAnc,
      Node.listDescAnc, matchesSel, Node.tagName, Node.classList, Node.classAttr,
      strContains, occursIn, isStartOf, Node.hasAttr, Node.attr, locate, firstHit,
      pattern1, pattern2, keywords, pyLower, Node.allText, Node.listText, findTags,
      openDiv, pageOpen, List.find?, List.countP, List.countP.go]

/-- C8: re-running the pipeline on the same DOM tree and source URL with a
different capture timestamp yields record sequences identical in every
field except `scraped_date`. -/
theorem extraction_deterministic (soup : Node) (url t1 t2 : String) :
    (scrape_jobs soup url t1).map eraseTimestamp =
      (scrape_jobs soup url t2).map eraseTimestamp := by
  unfold scrape_jobs
  induction locate soup with
  | nil => rfl
  | cons p ps ih =>
    by_cases h : extract_job_title p.1 = ""
    all_goals
      simp [mkRecord, eraseTimestamp, h] at ih ⊢
      exact ih

end JobScraper
